import Mathlib

/-!
Verification development for the `cacheables` memoization engine.

The Python source is shallowly embedded: pure helpers become Lean
functions, the mutable cache directory becomes an explicit association
list from paths to file values, and methods that may raise become
`Except`-valued functions.  External primitives (md5, pickle) are
uninterpreted function parameters: nothing proved here relies on any
property of theirs beyond being functions.
-/

namespace Cacheables

/-- Byte strings, as lists of byte values. -/
abbrev Bytes := List Nat

/-- `keys.FunctionKey`: identifies a cacheable function. -/
structure FunctionKey where
  function_id : String
deriving DecidableEq, Repr

/-- `keys.InputKey`: identifies one cached call. -/
structure InputKey where
  function_id : String
  input_id : String
deriving DecidableEq, Repr

/-- `InputKey.function_key` property from `keys.py`. -/
def InputKey.function_key (k : InputKey) : FunctionKey :=
  ⟨k.function_id⟩

/-! ## Key builder (`keys.py` / `core.CacheableFunction.get_input_id`)

A function's parameter list is a sequence of named parameters with
optional default values; `bindArgs` models
`inspect.signature(fn).bind(*args, **kwargs)` followed by
`apply_defaults()`, yielding the name-to-value mapping in parameter
declaration order (as `BoundArguments.arguments` does) or an error when
the call cannot be bound. -/

/-- One declared parameter of a wrapped function (name plus optional
default), the information `inspect.signature` exposes for binding. -/
structure Param (V : Type) where
  name : String
  default : Option V
deriving DecidableEq, Repr

/-- First value bound to keyword `n` in the keyword-argument mapping. -/
def lookupArg {V : Type} (kwargs : List (String × V)) (n : String) : Option V :=
  (kwargs.find? (fun kv => kv.1 = n)).map Prod.snd

/-- Drop keyword `n` from the keyword-argument mapping. -/
def removeArg {V : Type} (kwargs : List (String × V)) (n : String) : List (String × V) :=
  kwargs.filter (fun kv => kv.1 ≠ n)

/-- `signature.bind(*args, **kwargs)` + `apply_defaults()`: positional
arguments fill parameters in order, keywords fill the rest, remaining
parameters take their defaults; errors mirror `TypeError`s raised by
`inspect`. -/
def bindArgs {V : Type} : List (Param V) → List V → List (String × V) →
    Except String (List (String × V))
  | [], [], [] => .ok []
  | [], _ :: _, _ => .error "too many positional arguments"
  | [], [], _ :: _ => .error "got an unexpected keyword argument"
  | p :: ps, v :: vs, kwargs =>
      if (lookupArg kwargs p.name).isSome then
        .error "multiple values for argument"
      else
        (bindArgs ps vs kwargs).map (fun rest => (p.name, v) :: rest)
  | p :: ps, [], kwargs =>
      match lookupArg kwargs p.name with
      | some v =>
          (bindArgs ps [] (removeArg kwargs p.name)).map
            (fun rest => (p.name, v) :: rest)
      | none =>
          match p.default with
          | some d => (bindArgs ps [] kwargs).map (fun rest => (p.name, d) :: rest)
          | none => .error "missing a required argument"

/-- `keys._default_exclude_args`: exclude arguments whose name starts
with an underscore. -/
def default_exclude_args (arg : String) : Bool :=
  arg.startsWith "_"

/-- `keys._filter_arguments`: drop excluded arguments. -/
def filter_arguments {V : Type} (arguments : List (String × V))
    (exclude_args_fn : String → Bool) : List (String × V) :=
  arguments.filter (fun kv => ! exclude_args_fn kv.1)

/-- `s[:n]`: the first `n` characters of a string (character-level
model of Python string slicing). -/
def strTake (s : String) (n : Nat) : String :=
  ⟨s.data.take n⟩

/-- `keys._hash_arguments`: hash each value (`md5(pickle.dumps(v))`,
modelled by the parameter `hashArg`), sort the (name, digest) pairs,
serialize-and-digest the sorted sequence (parameter `hashPairs` models
`md5(pickle.dumps(...)).hexdigest()`), and truncate to 16 characters. -/
def hash_arguments {V : Type} (hashArg : V → String)
    (hashPairs : List (String × String) → String)
    (arguments : List (String × V)) : String :=
  let hashed := arguments.map (fun kv => (kv.1, hashArg kv.2))
  let sorted := hashed.mergeSort (fun a b => decide (a.1 ≤ b.1))
  strTake (hashPairs sorted) 16

/-- `keys.create_key_builder`'s `key_builder` (also
`core.CacheableFunction.get_input_id`): bind, filter, hash. -/
def key_builder {V : Type} (hashArg : V → String)
    (hashPairs : List (String × String) → String)
    (exclude_args_fn : String → Bool) (params : List (Param V))
    (posArgs : List V) (kwargs : List (String × V)) : Except String String :=
  (bindArgs params posArgs kwargs).map
    (fun arguments => hash_arguments hashArg hashPairs
      (filter_arguments arguments exclude_args_fn))

/-! ## Cache enablement controller (`controllers.py`)

The controller's mutable attributes (`_read`, `_write`, `_filter`) form
an explicit state record; the global singleton's attributes form another;
the ambient environment variables `CACHEABLES_ENABLED` /
`CACHEABLES_DISABLED` (compared against `"true"`) form a third. -/

/-- Ambient environment: whether each of the two flag variables compares
equal to `"true"`. -/
structure EnvState where
  cacheables_enabled : Bool
  cacheables_disabled : Bool
deriving DecidableEq, Repr

/-- `GlobalCacheController._env_var_enabled`: tri-state ambient signal,
paired with whether the both-set warning is raised. -/
def env_var_enabled (env : EnvState) : Option Bool × Bool :=
  if env.cacheables_enabled ∧ env.cacheables_disabled then (some false, true)
  else if env.cacheables_disabled then (some false, false)
  else if env.cacheables_enabled then (some true, false)
  else (none, false)

/-- State of the `GlobalCacheController` singleton (`_read`, `_write`). -/
structure GlobalCacheController where
  read : Option Bool
  write : Option Bool
deriving DecidableEq, Repr

/-- `GlobalCacheController.is_read_enabled`. -/
def GlobalCacheController.is_read_enabled (g : GlobalCacheController)
    (env : EnvState) : Option Bool :=
  let e := (env_var_enabled env).1
  if g.read = some false ∨ e = some false then some false
  else if g.read = some true ∨ e = some true then some true
  else none

/-- `GlobalCacheController.is_write_enabled`. -/
def GlobalCacheController.is_write_enabled (g : GlobalCacheController)
    (env : EnvState) : Option Bool :=
  let e := (env_var_enabled env).1
  if g.write = some false ∨ e = some false then some false
  else if g.write = some true ∨ e = some true then some true
  else none

/-- State of one per-function `CacheController` (`_read`, `_write`,
`_filter`); `α` is the wrapped function's output type. -/
structure CacheController (α : Type) where
  read : Option Bool
  write : Option Bool
  filter : Option (α → Bool)

/-- `CacheController.is_read_enabled` (consults the global singleton,
which consults the ambient environment). -/
def CacheController.is_read_enabled {α : Type} (c : CacheController α)
    (g : GlobalCacheController) (env : EnvState) : Option Bool :=
  if c.read = some false ∨ g.is_read_enabled env = some false then some false
  else if c.read = some true ∨ g.is_read_enabled env = some true then some true
  else none

/-- `CacheController.is_write_enabled`. -/
def CacheController.is_write_enabled {α : Type} (c : CacheController α)
    (g : GlobalCacheController) (env : EnvState) : Option Bool :=
  if c.write = some false ∨ g.is_write_enabled env = some false then some false
  else if c.write = some true ∨ g.is_write_enabled env = some true then some true
  else none

/-- `CacheController.is_passing_filter`. -/
def CacheController.is_passing_filter {α : Type} (c : CacheController α)
    (output : α) : Bool :=
  match c.filter with
  | none => true
  | some f => f output

/-- `CacheController.enable`: installs the given read/write pair (and
filter) and returns the new state together with the snapshot the scope's
`finally` block will restore. -/
def CacheController.enable {α : Type} (c : CacheController α)
    (read write : Bool) (filter : Option (α → Bool)) :
    CacheController α × CacheController α :=
  (⟨some read, some write, filter⟩, c)

/-- The scope's `finally` block: assign the saved `_read`, `_write`,
`_filter` back onto the controller. -/
def restoreScope {α : Type} (saved cur : CacheController α) : CacheController α :=
  { cur with read := saved.read, write := saved.write, filter := saved.filter }

/-- `CacheController.disable` = `enable(read=False, write=False)` with
the default always-true filter. -/
def CacheController.disable {α : Type} (c : CacheController α) :
    CacheController α × CacheController α :=
  c.enable false false (some (fun _ => true))

/-- Running a body under a `with controller.enable(...):` scope.  The
body receives the installed state and returns a result (possibly an
exception, of type `ε`) together with the controller state it leaves
behind; the `finally` block restores the snapshot on both exit paths. -/
def withScope {α β ε : Type} (c : CacheController α) (read write : Bool)
    (filter : Option (α → Bool))
    (body : CacheController α → Except ε β × CacheController α) :
    Except ε β × CacheController α :=
  let (installed, saved) := c.enable read write filter
  let (r, after) := body installed
  (r, restoreScope saved after)

/-! ## Cache entry metadata (`metadata.create_metadata`)

The metadata dictionary written to `metadata.json`.  The serializer
metadata of the default pickle serializer is `{"extension": "pickle"}`,
modelled by the `serializer_extension` field; git provenance is
best-effort and environment-dependent, modelled as absent. -/

/-- The metadata dictionary for one cache entry. -/
structure Metadata where
  input_id : String
  output_id : String
  created_at : String
  serializer_extension : String
  last_accessed : Option String
deriving DecidableEq, Repr

/-- `metadata.create_metadata input_id output_id serializer_metadata`
(`created_at` is the current time, passed explicitly). -/
def create_metadata (input_id output_id : String)
    (serializer_extension : String) (created_at : String) : Metadata :=
  { input_id := input_id, output_id := output_id, created_at := created_at,
    serializer_extension := serializer_extension, last_accessed := none }

/-- The text `json.dump(metadata, f, indent=4)` writes; only its length
matters (for the `os.stat(...).st_size < 5` checks). -/
def metaJson (m : Metadata) : String :=
  "\x7b\n    \"input_id\": \"" ++ m.input_id ++ "\",\n    \"output_id\": \"" ++
    m.output_id ++ "\",\n    \"created_at\": \"" ++ m.created_at ++
    "\",\n    \"serializer\": \x7b\"extension\": \"" ++ m.serializer_extension ++
    "\"\x7d" ++
    (match m.last_accessed with
     | none => ""
     | some t => ",\n    \"last_accessed\": \"" ++ t ++ "\"") ++ "\n\x7d"

/-! ## Disk cache (`caches/disk.py` on top of `caches/base.py`)

The file system is an association list from paths (segment lists) to
file contents; a file holds either raw bytes or a JSON-encoded metadata
dictionary.  Directories are implicit.  Each operation also returns the
sequence of lock and file-system events it performs, used to state the
locking and ordering claims. -/

/-- A file-system path, as a list of segments. -/
abbrev DPath := List String

/-- Contents of one file. -/
inductive FSVal where
  | raw (b : Bytes)
  | metaFile (m : Metadata)
deriving DecidableEq, Repr

/-- The on-disk state. -/
abbrev FS := List (DPath × FSVal)

/-- `os.stat(path).st_size` of a file's contents. -/
def fsvalSize : FSVal → Nat
  | .raw b => b.length
  | .metaFile m => (metaJson m).length

/-- The raw bytes `open(path, "rb").read()` returns. -/
def fsvalBytes : FSVal → Bytes
  | .raw b => b
  | .metaFile m => (metaJson m).toList.map Char.toNat

/-- Contents of the file at `p`, if present. -/
def fsLookup (fs : FS) (p : DPath) : Option FSVal :=
  (fs.find? (fun e => e.1 = p)).map (·.2)

/-- Atomically (re)write the file at `p`. -/
def fsInsert (fs : FS) (p : DPath) (v : FSVal) : FS :=
  (p, v) :: fs.filter (fun e => e.1 ≠ p)

/-- `shutil.rmtree(p, ignore_errors=True)`: drop every file under `p`. -/
def fsRemoveTree (fs : FS) (p : DPath) : FS :=
  fs.filter (fun e => ¬ p.isPrefixOf e.1)

/-- Exceptions of the caching path, mirroring `exceptions.py` plus the
built-in errors the code can raise; wrapper classes carry their cause. -/
inductive CacheError where
  | fileNotFound (p : DPath)
  | emptyMetadataFile
  | jsonDecodeError
  | assertionFailed
  | serializeFailed
  | deserializeFailed
  | readExc (cause : CacheError)
  | writeExc (cause : CacheError)
  | inputKeyNotFound (k : InputKey)
  | cacheNotEnabledRead
  | cacheNotEnabledWrite
  | loadExc (cause : CacheError)
  | dumpExc (cause : CacheError)
deriving DecidableEq, Repr

/-- Lock and file-system events an operation performs, in order. -/
inductive FSEvent where
  | acquireLock (lock : DPath)
  | releaseLock (lock : DPath)
  | rmtree (p : DPath)
  | mkdirParents (p : DPath)
  | openWrite (p : DPath) (v : FSVal)
  | openRead (p : DPath)
  | copyTree (src dst : DPath)
deriving DecidableEq, Repr

/-- Disk-cache configuration: the resolved base path and the `md5`
hex-digest primitive (uninterpreted). -/
structure DiskEnv where
  base : DPath
  md5hex : String → String

/-- Join path segments with `/` (`str(path)`). -/
def pathStr (p : DPath) : String :=
  String.intercalate "/" p

/-- `DiskCache._construct_input_path`:
`<base>/functions/<function_id>/inputs/<input_id>`. -/
def construct_input_path (env : DiskEnv) (k : InputKey) : DPath :=
  env.base ++ ["functions", k.function_id, "inputs", k.input_id]

/-- `DiskCache._construct_metadata_path`: `<input path>/metadata.json`. -/
def construct_metadata_path (env : DiskEnv) (k : InputKey) : DPath :=
  construct_input_path env k ++ ["metadata.json"]

/-- `DiskCache._construct_output_path`:
`<input path>/<output_id>.<extension>`. -/
def construct_output_path (env : DiskEnv) (k : InputKey) (m : Metadata) : DPath :=
  construct_input_path env k ++ [m.output_id ++ "." ++ m.serializer_extension]

/-- `DiskCache._construct_lock_path`:
`<base>/locks/<md5 of input path>.lock`. -/
def construct_lock_path (env : DiskEnv) (k : InputKey) : DPath :=
  env.base ++ ["locks", env.md5hex (pathStr (construct_input_path env k)) ++ ".lock"]

/-- `DiskCache.exists`: the entry's `metadata.json` is present as a
regular file. -/
def DiskCache.existsEntry (env : DiskEnv) (fs : FS) (k : InputKey) : Bool :=
  (fsLookup fs (construct_metadata_path env k)).isSome

/-- `DiskCache.evict`: `shutil.rmtree` of the entry directory (no lock
is acquired). -/
def DiskCache.evict (env : DiskEnv) (k : InputKey) (fs : FS) :
    FS × List FSEvent :=
  let ip := construct_input_path env k
  (fsRemoveTree fs ip, [.rmtree ip])

/-- `DiskCache.dump_metadata` (under `@acquire_lock`): write the
metadata JSON, then fail if the written file is smaller than 5 bytes. -/
def DiskCache.dump_metadata (env : DiskEnv) (m : Metadata) (k : InputKey)
    (fs : FS) : Except CacheError Unit × FS × List FSEvent :=
  let mp := construct_metadata_path env k
  let lp := construct_lock_path env k
  let fs' := fsInsert fs mp (.metaFile m)
  let tr := [.acquireLock lp, .mkdirParents (mp.dropLast), .openWrite mp (.metaFile m),
    .releaseLock lp]
  if fsvalSize (.metaFile m) < 5 then (.error .emptyMetadataFile, fs', tr)
  else (.ok (), fs', tr)

/-- `DiskCache.load_metadata` (under `@acquire_lock`): `os.stat` the
metadata file (FileNotFoundError propagates unwrapped), fail if smaller
than 5 bytes, else `json.load` it. -/
def DiskCache.load_metadata (env : DiskEnv) (k : InputKey) (fs : FS) :
    Except CacheError Metadata × FS × List FSEvent :=
  let mp := construct_metadata_path env k
  let lp := construct_lock_path env k
  let tr := [.acquireLock lp, .openRead mp, .releaseLock lp]
  match fsLookup fs mp with
  | none => (.error (.fileNotFound mp), fs, tr)
  | some v =>
      if fsvalSize v < 5 then (.error .emptyMetadataFile, fs, tr)
      else
        match v with
        | .metaFile m => (.ok m, fs, tr)
        | .raw _ => (.error .jsonDecodeError, fs, tr)

/-- `DiskCache.read_output` (under `@acquire_lock`): read the output
file named from the metadata; any failure is wrapped in
`ReadException`. -/
def DiskCache.read_output (env : DiskEnv) (m : Metadata) (k : InputKey)
    (fs : FS) : Except CacheError Bytes × FS × List FSEvent :=
  let op := construct_output_path env k m
  let lp := construct_lock_path env k
  let tr := [.acquireLock lp, .openRead op, .releaseLock lp]
  match fsLookup fs op with
  | none => (.error (.readExc (.fileNotFound op)), fs, tr)
  | some v => (.ok (fsvalBytes v), fs, tr)

/-- `DiskCache.write_output` (under `@acquire_lock`): write the output
bytes directly at the destination output path (any failure would be
wrapped in `WriteException`; in this file-system model the plain write
cannot fail). -/
def DiskCache.write_output (env : DiskEnv) (output_bytes : Bytes)
    (m : Metadata) (k : InputKey) (fs : FS) :
    Except CacheError Unit × FS × List FSEvent :=
  let op := construct_output_path env k m
  let lp := construct_lock_path env k
  (.ok (), fsInsert fs op (.raw output_bytes),
    [.acquireLock lp, .mkdirParents (op.dropLast), .openWrite op (.raw output_bytes),
      .releaseLock lp])

/-- `DiskCache.update_last_accessed`: load the metadata, set
`last_accessed` to the current time, dump it back.  Errors from either
step propagate unwrapped. -/
def DiskCache.update_last_accessed (env : DiskEnv) (now : String)
    (k : InputKey) (fs : FS) : Except CacheError Unit × FS × List FSEvent :=
  match DiskCache.load_metadata env k fs with
  | (.error e, fs1, t1) => (.error e, fs1, t1)
  | (.ok m, fs1, t1) =>
      let m' := { m with last_accessed := some now }
      match DiskCache.dump_metadata env m' k fs1 with
      | (.error e, fs2, t2) => (.error e, fs2, t1 ++ t2)
      | (.ok _, fs2, t2) => (.ok (), fs2, t1 ++ t2)

/-- `BaseCache.read`: update `last_accessed`, load the metadata, read
the output file it names. -/
def DiskCache.read (env : DiskEnv) (now : String) (k : InputKey) (fs : FS) :
    Except CacheError Bytes × FS × List FSEvent :=
  match DiskCache.update_last_accessed env now k fs with
  | (.error e, fs1, t1) => (.error e, fs1, t1)
  | (.ok _, fs1, t1) =>
      match DiskCache.load_metadata env k fs1 with
      | (.error e, fs2, t2) => (.error e, fs2, t1 ++ t2)
      | (.ok m, fs2, t2) =>
          match DiskCache.read_output env m k fs2 with
          | (r, fs3, t3) => (r, fs3, t1 ++ t2 ++ t3)

/-- `BaseCache.write`: evict any prior entry, write the output bytes,
write the metadata, update `last_accessed`. -/
def DiskCache.write (env : DiskEnv) (now : String) (output_bytes : Bytes)
    (m : Metadata) (k : InputKey) (fs : FS) :
    Except CacheError Unit × FS × List FSEvent :=
  match DiskCache.evict env k fs with
  | (fs1, t1) =>
      match DiskCache.write_output env output_bytes m k fs1 with
      | (.error e, fs2, t2) => (.error e, fs2, t1 ++ t2)
      | (.ok _, fs2, t2) =>
          match DiskCache.dump_metadata env m k fs2 with
          | (.error e, fs3, t3) => (.error e, fs3, t1 ++ t2 ++ t3)
          | (.ok _, fs3, t3) =>
              match DiskCache.update_last_accessed env now k fs3 with
              | (r, fs4, t4) => (r, fs4, t1 ++ t2 ++ t3 ++ t4)

/-! ## Orchestrator (`core.CacheableFunction`)

`__call__`, `_load` and `_dump` are embedded over an abstract cache (a
state type `σ` with `exists`/`read`/`write` operations, instantiated
below with the disk cache) and an abstract serializer.  The result of
binding and hashing the call's arguments (`_get_input_key_from_args`)
and the result of running the wrapped function are passed in as
`Except` values, since both may raise; `ε` is the type of the wrapped
function's own exceptions. -/

/-- Serializer contract (`serializers/base.py`); `serialize` and
`deserialize` may raise. -/
structure SerializerModel (α : Type) where
  serialize : α → Except CacheError Bytes
  deserialize : Bytes → Except CacheError α
  extension : String

/-- The cache operations `__call__` uses, over cache state `σ`.
`DiskCache.exists` cannot raise (`Path.exists` swallows `OSError`), so
`existsFn` is total; `read` and `write` may raise and may mutate. -/
structure CacheOps (σ : Type) where
  existsFn : σ → InputKey → Bool
  readFn : σ → InputKey → Except CacheError Bytes × σ
  writeFn : σ → Bytes → Metadata → InputKey → Except CacheError Unit × σ

/-- Truthiness of a tri-state flag (`if read:` in Python: `None` and
`False` are falsy). -/
def truthy : Option Bool → Bool
  | some true => true
  | _ => false

/-- `core.CacheableFunction._get_output_id_from_bytes`:
`md5(output_bytes).hexdigest()[:16]` (`hashBytes` models the digest). -/
def get_output_id_from_bytes (hashBytes : Bytes → String) (b : Bytes) : String :=
  strTake (hashBytes b) 16

/-- `core.CacheableFunction._load`: re-check read enablement, check
existence, read and deserialize; every exception is wrapped in
`LoadException`. -/
def CacheableFunction.load {σ α : Type} (ops : CacheOps σ)
    (ser : SerializerModel α) (ctrl : CacheController α)
    (g : GlobalCacheController) (env : EnvState) (k : InputKey) (s : σ) :
    Except CacheError α × σ :=
  if ¬ truthy (ctrl.is_read_enabled g env) then
    (.error (.loadExc .cacheNotEnabledRead), s)
  else if ¬ ops.existsFn s k then
    (.error (.loadExc (.inputKeyNotFound k)), s)
  else
    match ops.readFn s k with
    | (.error e, s') => (.error (.loadExc e), s')
    | (.ok output_bytes, s') =>
        match ser.deserialize output_bytes with
        | .error e => (.error (.loadExc e), s')
        | .ok output => (.ok output, s')

/-- `core.CacheableFunction._dump`: re-check write enablement,
serialize, build metadata, write; every exception is wrapped in
`DumpException`. -/
def CacheableFunction.dump {σ α : Type} (ops : CacheOps σ)
    (ser : SerializerModel α) (hashBytes : Bytes → String) (now : String)
    (ctrl : CacheController α) (g : GlobalCacheController) (env : EnvState)
    (output : α) (k : InputKey) (s : σ) : Except CacheError Unit × σ :=
  if ¬ truthy (ctrl.is_write_enabled g env) then
    (.error (.dumpExc .cacheNotEnabledWrite), s)
  else
    match ser.serialize output with
    | .error e => (.error (.dumpExc e), s)
    | .ok output_bytes =>
        let output_id := get_output_id_from_bytes hashBytes output_bytes
        let md := create_metadata k.input_id output_id ser.extension now
        match ops.writeFn s output_bytes md k with
        | (.error e, s') => (.error (.dumpExc e), s')
        | (.ok _, s') => (.ok (), s')

/-- Errors a call can surface: the wrapped function's own exception, or
(for the statement of the propagation claim) a caching-path error. -/
inductive CallError (ε : Type) where
  | fnError (e : ε)
  | cachingError (e : CacheError)
deriving DecidableEq, Repr

/-- Observable outcome of one `__call__`: the returned value or
propagated exception, how many times the wrapped function ran, how many
warnings were emitted, and the final cache state. -/
structure CallResult (σ α ε : Type) where
  result : Except (CallError ε) α
  fnCalls : Nat
  warnings : Nat
  state : σ

/-- `core.CacheableFunction.__call__`.  `keyRes` is the outcome of
`_get_input_key_from_args` (binding may raise), `fnRes` the outcome of
`self._fn(*args, **kwargs)`. -/
def CacheableFunction.call {σ α ε : Type} (ops : CacheOps σ)
    (ser : SerializerModel α) (hashBytes : Bytes → String) (now : String)
    (ctrl : CacheController α) (g : GlobalCacheController) (env : EnvState)
    (keyRes : Except String InputKey) (fnRes : Except ε α) (s : σ) :
    CallResult σ α ε :=
  let read := ctrl.is_read_enabled g env
  let write := ctrl.is_write_enabled g env
  if ¬ (truthy read ∨ truthy write) then
    { result := fnRes.mapError .fnError, fnCalls := 1, warnings := 0, state := s }
  else
    match keyRes with
    | .error _ =>
        { result := fnRes.mapError .fnError, fnCalls := 1, warnings := 1, state := s }
    | .ok input_key =>
        match (if truthy read then
            if ops.existsFn s input_key then
              match CacheableFunction.load ops ser ctrl g env input_key s with
              | (.ok output, s') =>
                  if ctrl.is_passing_filter output then (some output, 0, s')
                  else (none, 0, s')
              | (.error _, s') => (none, 1, s')
            else (none, 0, s)
          else ((none, 0, s) : Option α × Nat × σ)) with
        | (some output, w, s') =>
            { result := .ok output, fnCalls := 0, warnings := w, state := s' }
        | (none, w, s') =>
            match fnRes with
            | .error e =>
                { result := .error (.fnError e), fnCalls := 1, warnings := w,
                  state := s' }
            | .ok output =>
                if truthy write then
                  match CacheableFunction.dump ops ser hashBytes now ctrl g env
                      output input_key s' with
                  | (.ok _, s'') =>
                      { result := .ok output, fnCalls := 1, warnings := w,
                        state := s'' }
                  | (.error _, s'') =>
                      { result := .ok output, fnCalls := 1, warnings := w + 1,
                        state := s'' }
                else
                  { result := .ok output, fnCalls := 1, warnings := w, state := s' }

/-- `core.CacheableFunction.load_metadata`: raises
`InputKeyNotFoundError` (unwrapped) when the entry is absent. -/
def CacheableFunction.load_metadata (env : DiskEnv) (k : InputKey) (fs : FS) :
    Except CacheError Metadata :=
  if ¬ DiskCache.existsEntry env fs k then .error (.inputKeyNotFound k)
  else (DiskCache.load_metadata env k fs).1

/-- The disk cache instantiated as the orchestrator's cache operations
(traces dropped). -/
def diskOps (env : DiskEnv) (now : String) : CacheOps FS where
  existsFn := fun fs k => DiskCache.existsEntry env fs k
  readFn := fun fs k =>
    ((DiskCache.read env now k fs).1, (DiskCache.read env now k fs).2.1)
  writeFn := fun fs b m k =>
    ((DiskCache.write env now b m k fs).1, (DiskCache.write env now b m k fs).2.1)

/-! ## Legacy staged write (`core.CacheableFunction._write_to_cache` /
`backends/disk.DiskBackend.write_output`)

The staged protocol: dump the serialized files into a private
temporary directory, assert it exists / is a directory / is non-empty,
then remove the destination directory (when present) and copy the
staged directory over.  `files` is the set of (name, bytes) files the
serializer's `dump` produces; version-metadata bookkeeping, which lives
outside the entry directory, is omitted. -/

/-- `_write_to_cache`, staging in `tmp` and installing at `dest`. -/
def write_to_cache (tmp dest : DPath) (files : List (String × Bytes))
    (fs : FS) : Except CacheError Unit × FS × List FSEvent :=
  let fs1 := files.foldl (fun acc f => fsInsert acc (tmp ++ [f.1]) (.raw f.2)) fs
  let stageTr := files.map (fun f => FSEvent.openWrite (tmp ++ [f.1]) (.raw f.2))
  if files.isEmpty then
    (.error (.dumpExc .assertionFailed), fsRemoveTree fs1 tmp, stageTr)
  else
    let destNonempty := fs1.any (fun e => dest.isPrefixOf e.1)
    let fs2 := fsRemoveTree fs1 dest
    let fs3 := files.foldl (fun acc f => fsInsert acc (dest ++ [f.1]) (.raw f.2)) fs2
    let swapTr := (if destNonempty then [FSEvent.rmtree dest] else []) ++
      [FSEvent.copyTree tmp dest]
    (.ok (), fsRemoveTree fs3 tmp,
      stageTr ++ [FSEvent.mkdirParents dest.dropLast] ++ swapTr)

/-! ## Trace predicates -/

/-- Number of lock acquisitions in a trace. -/
def countAcquires (tr : List FSEvent) : Nat :=
  tr.countP (fun e => match e with | .acquireLock _ => true | _ => false)

/-- The trace is one single lock-held span: an acquisition, a body with
no further acquisition, and the matching release. -/
def isSingleLockSpan (tr : List FSEvent) : Bool :=
  match tr with
  | .acquireLock l :: rest =>
      match rest.getLast? with
      | some (.releaseLock l') => decide (l = l') && (countAcquires rest == 0)
      | _ => false
  | _ => false

/-- Some file is opened for writing directly under `dest`. -/
def writesDirectlyUnder (tr : List FSEvent) (dest : DPath) : Bool :=
  tr.any (fun e => match e with
    | .openWrite p _ => dest.isPrefixOf p
    | _ => false)

/-- The trace installs a staged directory with a `copytree`. -/
def usesTempStaging (tr : List FSEvent) : Bool :=
  tr.any (fun e => match e with | .copyTree _ _ => true | _ => false)

/-- Every file opened for writing lies under `tmp` (all content writes
are staged). -/
def allWritesUnder (tr : List FSEvent) (tmp : DPath) : Bool :=
  tr.all (fun e => match e with
    | .openWrite p _ => tmp.isPrefixOf p
    | _ => true)

/-! ## Spec-side flag resolution (for the refinement statement of the
controller claim)

Modelled from the spec: "the flag is false as soon as any consulted
level explicitly sets it false OR the ambient environment forces
disablement; it is true as soon as any level explicitly sets it true
(and no more-overriding level vetoes it with false); if no level ever
sets it explicitly, the result is unset".  The consulted levels, most
specific first, are the per-function slot (which per-call scopes
install into), the global slot, and the ambient signal. -/
def resolveFlagSpec (levels : List (Option Bool)) : Option Bool :=
  if levels.any (fun l => l = some false) then some false
  else if levels.any (fun l => l = some true) then some true
  else none

/-! ## Helper lemmas -/

theorem find?_filter_of_imp {α : Type} (l : List α) (p q : α → Bool)
    (h : ∀ a, p a = true → q a = true) : (l.filter q).find? p = l.find? p := by
  induction l with
  | nil => rfl
  | cons a t ih =>
      by_cases hq : q a = true
      · rw [List.filter_cons_of_pos hq]
        by_cases hp : p a = true
        · rw [List.find?_cons_of_pos _ hp, List.find?_cons_of_pos _ hp]
        · rw [List.find?_cons_of_neg _ (by simpa using hp),
            List.find?_cons_of_neg _ (by simpa using hp), ih]
      · have hp : ¬ p a = true := fun hpa => hq (h a hpa)
        rw [List.filter_cons_of_neg (by simpa using hq), ih,
          List.find?_cons_of_neg _ (by simpa using hp)]

theorem find?_filter_none {α : Type} (l : List α) (p q : α → Bool)
    (h : ∀ a, p a = true → q a = false) : (l.filter q).find? p = none := by
  induction l with
  | nil => rfl
  | cons a t ih =>
      by_cases hq : q a = true
      · have hp : ¬ p a = true := fun hpa => by simp [h a hpa] at hq
        rw [List.filter_cons_of_pos hq, List.find?_cons_of_neg _ (by simpa using hp), ih]
      · rw [List.filter_cons_of_neg (by simpa using hq), ih]

theorem fsLookup_insert_self (fs : FS) (p : DPath) (v : FSVal) :
    fsLookup (fsInsert fs p v) p = some v := by
  simp [fsLookup, fsInsert, List.find?]

theorem fsLookup_insert_ne (fs : FS) (p q : DPath) (v : FSVal) (h : q ≠ p) :
    fsLookup (fsInsert fs p v) q = fsLookup fs q := by
  unfold fsLookup fsInsert
  rw [List.find?_cons_of_neg _ (by simpa using fun hpq => h hpq.symm)]
  rw [find?_filter_of_imp]
  intro a ha
  simp only [decide_eq_true_eq] at ha
  simpa [ha] using h

theorem fsLookup_removeTree (fs : FS) (p q : DPath)
    (h : p.isPrefixOf q = true) : fsLookup (fsRemoveTree fs p) q = none := by
  unfold fsLookup fsRemoveTree
  rw [find?_filter_none]
  · rfl
  · intro a ha
    simp only [decide_eq_true_eq] at ha
    simp [ha, h]

theorem isPrefixOf_append (l t : DPath) : l.isPrefixOf (l ++ t) = true := by
  rw [List.isPrefixOf_iff_prefix]
  exact List.prefix_append l t

theorem snoc_ne_snoc (l : DPath) (a b : String) (h : a ≠ b) :
    l ++ [a] ≠ l ++ [b] := by
  intro he
  exact h (by simpa using List.append_cancel_left he)

theorem metaJson_length (m : Metadata) : 5 ≤ (metaJson m).length := by
  have h : ("\x7b\n    \"input_id\": \"" : String).length = 19 := by decide
  unfold metaJson
  simp only [String.length_append]
  omega

theorem fsLookup_removeTree_not_under (fs : FS) (p q : DPath)
    (h : p.isPrefixOf q = false) :
    fsLookup (fsRemoveTree fs p) q = fsLookup fs q := by
  unfold fsLookup fsRemoveTree
  rw [find?_filter_of_imp]
  intro a ha
  simp only [decide_eq_true_eq] at ha
  simp [ha, h]

theorem fsLookup_removeTree_of_none (fs : FS) (p q : DPath)
    (h : fsLookup fs q = none) : fsLookup (fsRemoveTree fs p) q = none := by
  unfold fsLookup fsRemoveTree
  unfold fsLookup at h
  rw [Option.map_eq_none'] at h ⊢
  rw [List.find?_eq_none] at h ⊢
  exact fun a ha => h a (List.mem_of_mem_filter ha)

theorem construct_output_path_touch (env : DiskEnv) (k : InputKey)
    (m : Metadata) (t : String) :
    construct_output_path env k { m with last_accessed := some t } =
      construct_output_path env k m := rfl

theorem metaFile_size_ok (m : Metadata) : ¬ fsvalSize (.metaFile m) < 5 := by
  have := metaJson_length m
  simp only [fsvalSize]
  omega

theorem dump_metadata_state (env : DiskEnv) (m : Metadata) (k : InputKey)
    (fs : FS) : (DiskCache.dump_metadata env m k fs).2.1 =
      fsInsert fs (construct_metadata_path env k) (.metaFile m) := by
  unfold DiskCache.dump_metadata
  split <;> rfl

theorem write_output_state (env : DiskEnv) (b : Bytes) (m : Metadata)
    (k : InputKey) (fs : FS) : (DiskCache.write_output env b m k fs).2.1 =
      fsInsert fs (construct_output_path env k m) (.raw b) := rfl

/-- Is the exception a `ReadException` (the backend's wrapper class)? -/
def isReadException : CacheError → Bool
  | .readExc _ => true
  | _ => false

theorem lookupArg_eq_none {V : Type} (l : List (String × V)) (n : String) :
    lookupArg l n = none ↔ n ∉ l.map Prod.fst := by
  unfold lookupArg
  rw [Option.map_eq_none', List.find?_eq_none]
  constructor
  · intro h hn
    obtain ⟨kv, hkv, hfst⟩ := List.mem_map.1 hn
    exact h kv hkv (by simpa using hfst)
  · intro h kv hkv hd
    simp only [decide_eq_true_eq] at hd
    exact h (List.mem_map.2 ⟨kv, hkv, hd⟩)

theorem lookupArg_some_mem {V : Type} {l : List (String × V)} {n : String}
    {v : V} (h : lookupArg l n = some v) : (n, v) ∈ l := by
  unfold lookupArg at h
  rw [Option.map_eq_some'] at h
  obtain ⟨kv, hfind, hsnd⟩ := h
  have hmem := List.mem_of_find?_eq_some hfind
  have hkey := List.find?_some hfind
  simp only [decide_eq_true_eq] at hkey
  have : kv = (n, v) := by
    obtain ⟨k1, v1⟩ := kv
    simp only at hkey hsnd
    rw [hkey, hsnd]
  rwa [this] at hmem

theorem lookupArg_eq_some_of_mem {V : Type} {l : List (String × V)}
    {n : String} {v : V} (hnd : (l.map Prod.fst).Nodup) (hm : (n, v) ∈ l) :
    lookupArg l n = some v := by
  induction l with
  | nil => cases hm
  | cons a t ih =>
      rw [List.map_cons, List.nodup_cons] at hnd
      by_cases ha : a.1 = n
      · have hfind : lookupArg (a :: t) n = some a.2 := by
          unfold lookupArg
          rw [List.find?_cons_of_pos _ (by simpa using ha)]
          rfl
        rcases List.mem_cons.1 hm with h1 | h1
        · rw [hfind, ← h1]
        · exact absurd (List.mem_map.2 ⟨(n, v), h1, rfl⟩) (ha ▸ hnd.1)
      · have hfind : lookupArg (a :: t) n = lookupArg t n := by
          unfold lookupArg
          rw [List.find?_cons_of_neg _ (by simpa using ha)]
        rcases List.mem_cons.1 hm with h1 | h1
        · exact absurd (congrArg Prod.fst h1.symm) ha
        · rw [hfind]
          exact ih hnd.2 h1

theorem lookupArg_perm {V : Type} {k1 k2 : List (String × V)}
    (h : k1.Perm k2) (hnd : (k1.map Prod.fst).Nodup) (n : String) :
    lookupArg k1 n = lookupArg k2 n := by
  cases hl : lookupArg k1 n with
  | none =>
      rw [lookupArg_eq_none] at hl
      rw [eq_comm, lookupArg_eq_none]
      intro hn
      exact hl ((h.map Prod.fst).mem_iff.2 hn)
  | some v =>
      have hm := lookupArg_some_mem hl
      have hnd2 : (k2.map Prod.fst).Nodup := ((h.map Prod.fst).nodup_iff).1 hnd
      exact (lookupArg_eq_some_of_mem hnd2 (h.subset hm)).symm

theorem removeArg_perm {V : Type} {k1 k2 : List (String × V)}
    (h : k1.Perm k2) (n : String) : (removeArg k1 n).Perm (removeArg k2 n) :=
  h.filter _

theorem removeArg_nodup {V : Type} (k : List (String × V)) (n : String)
    (hnd : (k.map Prod.fst).Nodup) : ((removeArg k n).map Prod.fst).Nodup :=
  ((List.filter_sublist k).map Prod.fst).nodup hnd

theorem bindArgs_perm {V : Type} (params : List (Param V)) :
    ∀ (posArgs : List V) (k1 k2 : List (String × V)), k1.Perm k2 →
      (k1.map Prod.fst).Nodup →
      bindArgs params posArgs k1 = bindArgs params posArgs k2 := by
  induction params with
  | nil =>
      intro posArgs k1 k2 h _
      cases posArgs with
      | cons v vs => rfl
      | nil =>
          cases k1 with
          | nil => rw [h.symm.eq_nil]
          | cons a t =>
              cases k2 with
              | nil => exact absurd h.eq_nil (by simp)
              | cons b s => rfl
  | cons p pt ih =>
      intro posArgs k1 k2 h hnd
      cases posArgs with
      | cons v vs =>
          simp only [bindArgs, lookupArg_perm h hnd p.name, ih vs k1 k2 h hnd]
      | nil =>
          simp only [bindArgs, lookupArg_perm h hnd p.name]
          cases hl : lookupArg k2 p.name with
          | some v =>
              rw [ih [] (removeArg k1 p.name) (removeArg k2 p.name)
                (removeArg_perm h p.name) (removeArg_nodup k1 p.name hnd)]
          | none =>
              cases p.default with
              | some d => rw [ih [] k1 k2 h hnd]
              | none => rfl

theorem removeArg_of_not_mem {V : Type} (k : List (String × V)) (n : String)
    (h : n ∉ k.map Prod.fst) : removeArg k n = k := by
  unfold removeArg
  rw [List.filter_eq_self]
  intro kv hkv
  simp only [decide_eq_true_eq]
  intro he
  exact h (List.mem_map.2 ⟨kv, hkv, he⟩)

theorem bindArgs_pos_eq_kw {V : Type} (params : List (Param V)) :
    ∀ vs : List V, (params.map Param.name).Nodup → vs.length = params.length →
      bindArgs params vs [] =
        bindArgs params [] (List.zip (params.map Param.name) vs) := by
  induction params with
  | nil =>
      intro vs _ hlen
      rw [List.length_nil, List.length_eq_zero] at hlen
      subst hlen
      rfl
  | cons p pt ih =>
      intro vs hnd hlen
      rw [List.map_cons, List.nodup_cons] at hnd
      cases vs with
      | nil => simp at hlen
      | cons v vt =>
          simp only [List.map_cons, List.zip_cons_cons, bindArgs]
          have hlook : lookupArg ((p.name, v) :: List.zip (pt.map Param.name) vt)
              p.name = some v := by
            unfold lookupArg
            rw [List.find?_cons_of_pos _ (by simp)]
            rfl
          have hlooknil : (lookupArg ([] : List (String × V)) p.name).isSome = false := rfl
          rw [hlooknil]
          simp only [Bool.false_eq_true, if_false, hlook]
          have hrm : removeArg ((p.name, v) :: List.zip (pt.map Param.name) vt)
              p.name = List.zip (pt.map Param.name) vt := by
            unfold removeArg
            rw [List.filter_cons_of_neg (by simp)]
            have hnm : p.name ∉ (List.zip (pt.map Param.name) vt).map Prod.fst := by
              intro hmem
              obtain ⟨kv, hkv, hfst⟩ := List.mem_map.1 hmem
              have := List.of_mem_zip hkv
              exact hnd.1 (hfst ▸ this.1)
            exact removeArg_of_not_mem _ _ hnm
          rw [hrm, ih vt hnd.2 (by simpa using hlen)]

theorem bindArgs_default_explicit {V : Type} (ps : List (Param V)) :
    ∀ (n : String) (d : V) (vs : List V), n ∉ ps.map Param.name →
      vs.length = ps.length →
      bindArgs (ps ++ [⟨n, some d⟩]) vs [] =
        bindArgs (ps ++ [⟨n, some d⟩]) vs [(n, d)] := by
  induction ps with
  | nil =>
      intro n d vs _ hlen
      rw [List.length_nil, List.length_eq_zero] at hlen
      subst hlen
      have h1 : lookupArg ([(n, d)] : List (String × V)) n = some d := by
        unfold lookupArg
        rw [List.find?_cons_of_pos _ (by simp)]
        rfl
      have h00 : lookupArg ([] : List (String × V)) n = none := rfl
      have hrm : removeArg ([(n, d)] : List (String × V)) n = [] := by
        unfold removeArg
        rw [List.filter_cons_of_neg (by simp)]
        rfl
      simp only [List.nil_append, bindArgs, h1, h00, hrm]
  | cons p pt ih =>
      intro n d vs hn hlen
      rw [List.map_cons, List.mem_cons] at hn
      push_neg at hn
      cases vs with
      | nil => simp at hlen
      | cons v vt =>
          simp only [List.cons_append, bindArgs]
          have h2 : lookupArg ([(n, d)] : List (String × V)) p.name = none := by
            unfold lookupArg
            rw [List.find?_cons_of_neg _ (by simpa using fun he => hn.1 he)]
            rfl
          have h2' : (lookupArg ([(n, d)] : List (String × V)) p.name).isSome = false := by
            rw [h2]
            rfl
          have h0 : (lookupArg ([] : List (String × V)) p.name).isSome = false := rfl
          rw [h0, h2']
          simp only [Bool.false_eq_true, if_false]
          exact congrArg (Except.map _) (ih n d vt hn.2 (by simpa using hlen))

theorem filter_arguments_congr {V : Type} (excl : String → Bool) :
    ∀ (m1 m2 : List (String × V)),
      List.Forall₂ (fun a b => a.1 = b.1 ∧ (excl a.1 = false → a = b)) m1 m2 →
      filter_arguments m1 excl = filter_arguments m2 excl := by
  intro m1 m2 h
  induction h with
  | nil => rfl
  | cons hab _ ih =>
      rename_i a b t1 t2 _
      by_cases he : excl a.1 = true
      · unfold filter_arguments at ih ⊢
        rw [List.filter_cons_of_neg (by simp [he]),
          List.filter_cons_of_neg (by simp [hab.1 ▸ he]), ih]
      · have hab' := hab.2 (by simpa using he)
        unfold filter_arguments at ih ⊢
        rw [List.filter_cons_of_pos (by simp [he]),
          List.filter_cons_of_pos (by simp [← hab.1, he]), ih, hab']

/-! ## Claim theorems -/

/-- The file-system state `BaseCache.write` leaves behind: prior entry
removed, output bytes at the output path, metadata (with its
last-accessed timestamp) at the metadata path. -/
def writtenState (env : DiskEnv) (now : String) (b : Bytes) (m : Metadata)
    (k : InputKey) (fs : FS) : FS :=
  fsInsert (fsInsert (fsInsert (fsRemoveTree fs (construct_input_path env k))
      (construct_output_path env k m) (.raw b))
    (construct_metadata_path env k) (.metaFile m))
    (construct_metadata_path env k)
    (.metaFile { m with last_accessed := some now })

theorem DiskCache.write_spec (env : DiskEnv) (now : String) (b : Bytes)
    (m : Metadata) (k : InputKey) (fs : FS) :
    DiskCache.write env now b m k fs =
      (Except.ok (), writtenState env now b m k fs,
        [.rmtree (construct_input_path env k),
          .acquireLock (construct_lock_path env k),
          .mkdirParents ((construct_output_path env k m).dropLast),
          .openWrite (construct_output_path env k m) (.raw b),
          .releaseLock (construct_lock_path env k),
          .acquireLock (construct_lock_path env k),
          .mkdirParents ((construct_metadata_path env k).dropLast),
          .openWrite (construct_metadata_path env k) (.metaFile m),
          .releaseLock (construct_lock_path env k),
          .acquireLock (construct_lock_path env k),
          .openRead (construct_metadata_path env k),
          .releaseLock (construct_lock_path env k),
          .acquireLock (construct_lock_path env k),
          .mkdirParents ((construct_metadata_path env k).dropLast),
          .openWrite (construct_metadata_path env k)
            (.metaFile { m with last_accessed := some now }),
          .releaseLock (construct_lock_path env k)]) := by
  simp only [DiskCache.write, DiskCache.evict, DiskCache.write_output,
    DiskCache.update_last_accessed, DiskCache.dump_metadata,
    DiskCache.load_metadata, fsLookup_insert_self,
    if_neg (metaFile_size_ok m),
    if_neg (metaFile_size_ok { m with last_accessed := some now })]
  rfl

/-- C6: `write(output_bytes, metadata, input_key)` performs exactly, in
order: evict the prior entry, write the output bytes, write the
metadata, update the last-accessed timestamp.  Each file-level step
independently acquires and releases the per-entry advisory lock (the
trace contains four separate acquire/release pairs of the same lock,
one around the output write, one around the metadata write, and two
inside the last-accessed update), and the sequence is not held under
one single lock acquisition. -/
theorem write_sequence_c6 (env : DiskEnv) (now : String) (b : Bytes)
    (m : Metadata) (k : InputKey) (fs : FS) :
    (DiskCache.write env now b m k fs).1 = .ok () ∧
    (DiskCache.write env now b m k fs).2.2 =
      ([.rmtree (construct_input_path env k)] ++
        [.acquireLock (construct_lock_path env k),
          .mkdirParents ((construct_output_path env k m).dropLast),
          .openWrite (construct_output_path env k m) (.raw b),
          .releaseLock (construct_lock_path env k)] ++
        [.acquireLock (construct_lock_path env k),
          .mkdirParents ((construct_metadata_path env k).dropLast),
          .openWrite (construct_metadata_path env k) (.metaFile m),
          .releaseLock (construct_lock_path env k)] ++
        ([.acquireLock (construct_lock_path env k),
            .openRead (construct_metadata_path env k),
            .releaseLock (construct_lock_path env k)] ++
          [.acquireLock (construct_lock_path env k),
            .mkdirParents ((construct_metadata_path env k).dropLast),
            .openWrite (construct_metadata_path env k)
              (.metaFile { m with last_accessed := some now }),
            .releaseLock (construct_lock_path env k)])) ∧
    countAcquires (DiskCache.write env now b m k fs).2.2 = 4 ∧
    isSingleLockSpan (DiskCache.write env now b m k fs).2.2 = false := by
  refine ⟨?_, ?_, ?_, ?_⟩
  · rw [DiskCache.write_spec]
  · rw [DiskCache.write_spec]
    rfl
  · rw [DiskCache.write_spec]
    rfl
  · rw [DiskCache.write_spec]
    rfl

/-- C4: flag resolution.  Each flag (read, and independently write)
resolves to `false` as soon as any consulted level (per-function slot,
global slot, ambient signal) explicitly sets it false or the ambient
environment forces disablement, to `true` when some level sets it true
and none vetoes with false, and to unset when no level sets it; and the
three cited scenarios: global disabled + instance enabled + call-scope
unset resolves disabled, a per-call explicit enable overrides an outer
instance-level disable, and both ambient flags asserted yields disabled
plus a warning. -/
theorem controller_resolution_c4 :
    (∀ (α : Type) (c : CacheController α) (g : GlobalCacheController)
        (env : EnvState),
      c.is_read_enabled g env =
        resolveFlagSpec [c.read, g.read, (env_var_enabled env).1] ∧
      c.is_write_enabled g env =
        resolveFlagSpec [c.write, g.write, (env_var_enabled env).1]) ∧
    ((⟨some true, some true, none⟩ : CacheController Nat).is_read_enabled
        ⟨some false, some false⟩ ⟨false, false⟩ = some false ∧
      (⟨some true, some true, none⟩ : CacheController Nat).is_write_enabled
        ⟨some false, some false⟩ ⟨false, false⟩ = some false) ∧
    (∀ (α : Type) (c : CacheController α) (f : Option (α → Bool)),
      (((c.disable).1.enable true true f).1.is_read_enabled ⟨none, none⟩
          ⟨false, false⟩ = some true ∧
        ((c.disable).1.enable true true f).1.is_write_enabled ⟨none, none⟩
          ⟨false, false⟩ = some true)) ∧
    (∀ (α : Type) (c : CacheController α) (g : GlobalCacheController),
      c.is_read_enabled g ⟨true, true⟩ = some false ∧
      c.is_write_enabled g ⟨true, true⟩ = some false ∧
      (env_var_enabled ⟨true, true⟩).2 = true) := by
  refine ⟨?_, ⟨rfl, rfl⟩, fun α c f => ⟨rfl, rfl⟩, ?_⟩
  · intro α c g env
    obtain ⟨r, w, f⟩ := c
    obtain ⟨gr, gw⟩ := g
    obtain ⟨e, d⟩ := env
    constructor
    · rcases r with _ | _ | _ <;> rcases gr with _ | _ | _ <;>
        cases e <;> cases d <;> rfl
    · rcases w with _ | _ | _ <;> rcases gw with _ | _ | _ <;>
        cases e <;> cases d <;> rfl
  · intro α c g
    constructor
    · rcases hc : c.read with _ | _ | _ <;>
        simp [CacheController.is_read_enabled, GlobalCacheController.is_read_enabled,
          env_var_enabled, hc]
    constructor
    · rcases hc : c.write with _ | _ | _ <;>
        simp [CacheController.is_write_enabled, GlobalCacheController.is_write_enabled,
          env_var_enabled, hc]
    · rfl

/-- C5: entering an enable/disable scope installs exactly the given
read/write pair (full replacement, independent of the outer state: no
intersection), and the previous controller state is restored on every
exit path (normal result or exception) of an arbitrary body, hence
under arbitrary nesting. -/
theorem scoped_enable_restores_c5 :
    ∀ (α β ε : Type) (c : CacheController α) (r w : Bool)
      (f : Option (α → Bool))
      (body : CacheController α → Except ε β × CacheController α),
      ((c.enable r w f).1.read = some r ∧ (c.enable r w f).1.write = some w ∧
        (c.enable r w f).1.filter = f) ∧
      (withScope c r w f body).2 = c ∧
      (withScope c r w f body).1 = (body (c.enable r w f).1).1 ∧
      (∀ (r2 w2 : Bool) (f2 : Option (α → Bool))
          (inner : CacheController α → Except ε β × CacheController α),
        (withScope c r w f
            (fun c1 => withScope c1 r2 w2 f2 inner)).2 = c ∧
        (∀ c1 : CacheController α,
          ((c1.enable r2 w2 f2).1.read = some r2 ∧
            (c1.enable r2 w2 f2).1.write = some w2))) := by
  intro α β ε c r w f body
  refine ⟨⟨rfl, rfl, rfl⟩, ?_, ?_, ?_⟩
  · simp [withScope, restoreScope, CacheController.enable]
  · simp [withScope, restoreScope, CacheController.enable]
  · intro r2 w2 f2 inner
    exact ⟨by simp [withScope, restoreScope, CacheController.enable],
      fun c1 => ⟨rfl, rfl⟩⟩

/-- C2: the derived `input_id` is a pure function of the bound
name-to-value argument map: (a) any two calls that bind to the same map
produce identical ids; (b) keyword-argument call-site order never
affects the binding (hence the id); (c) passing all arguments
positionally binds identically to passing them all by keyword; (d) a
trailing defaulted parameter left to its default binds identically to
passing the default explicitly; (e) values of arguments whose name
satisfies the exclusion predicate never affect the id. -/
theorem input_id_invariance_c2 {V : Type} (hashArg : V → String)
    (hashPairs : List (String × String) → String) (excl : String → Bool) :
    (∀ (params : List (Param V)) (a1 a2 : List V)
        (k1 k2 : List (String × V)) (m : List (String × V)),
      bindArgs params a1 k1 = .ok m → bindArgs params a2 k2 = .ok m →
      key_builder hashArg hashPairs excl params a1 k1 =
        key_builder hashArg hashPairs excl params a2 k2) ∧
    (∀ (params : List (Param V)) (pos : List V) (k1 k2 : List (String × V)),
      k1.Perm k2 → (k1.map Prod.fst).Nodup →
      bindArgs params pos k1 = bindArgs params pos k2) ∧
    (∀ (params : List (Param V)) (vs : List V),
      (params.map Param.name).Nodup → vs.length = params.length →
      bindArgs params vs [] =
        bindArgs params [] (List.zip (params.map Param.name) vs)) ∧
    (∀ (ps : List (Param V)) (n : String) (d : V) (vs : List V),
      n ∉ ps.map Param.name → vs.length = ps.length →
      bindArgs (ps ++ [⟨n, some d⟩]) vs [] =
        bindArgs (ps ++ [⟨n, some d⟩]) vs [(n, d)]) ∧
    (∀ (m1 m2 : List (String × V)),
      List.Forall₂ (fun a b => a.1 = b.1 ∧ (excl a.1 = false → a = b)) m1 m2 →
      hash_arguments hashArg hashPairs (filter_arguments m1 excl) =
        hash_arguments hashArg hashPairs (filter_arguments m2 excl)) := by
  refine ⟨?_, ?_, ?_, ?_, ?_⟩
  · intro params a1 a2 k1 k2 m h1 h2
    unfold key_builder
    rw [h1, h2]
  · exact fun params pos k1 k2 h hnd => bindArgs_perm params pos k1 k2 h hnd
  · exact fun params vs hnd hlen => bindArgs_pos_eq_kw params vs hnd hlen
  · exact fun ps n d vs hn hlen => bindArgs_default_explicit ps n d vs hn hlen
  · exact fun m1 m2 h => congrArg _ (filter_arguments_congr excl m1 m2 h)

/-- The default exclusion predicate restated in kernel-computable form
(the name's first character is an underscore), used to instantiate the
generic exclusion parameter in witnesses. -/
def startsWithUnderscore (arg : String) : Bool :=
  arg.toList.head? = some '_'

/-- Witness for C2 at the concrete function `f(a, _private, b=10)`:
`f(1, 5, 2)` and `f(b=2, _private=5, a=1)` bind to the same map and get
the same `input_id`; the two keyword orders bind identically; the
all-positional and all-keyword calls bind identically; omitting the
defaulted `b` equals passing `b=10`; and changing `_private` from 5 to
99 leaves the id unchanged. -/
theorem input_id_invariance_c2_witness :
    (bindArgs [⟨"a", none⟩, ⟨"_private", none⟩, ⟨"b", some 10⟩]
        [1, 5, 2] ([] : List (String × Nat)) =
      .ok [("a", 1), ("_private", 5), ("b", 2)]) ∧
    (bindArgs [⟨"a", none⟩, ⟨"_private", none⟩, ⟨"b", some 10⟩] ([] : List Nat)
        [("b", 2), ("_private", 5), ("a", 1)] =
      .ok [("a", 1), ("_private", 5), ("b", 2)]) ∧
    key_builder toString (fun l => String.join (l.map fun p => p.1 ++ p.2))
        startsWithUnderscore
        [⟨"a", none⟩, ⟨"_private", none⟩, ⟨"b", some 10⟩] [1, 5, 2] [] =
      key_builder toString (fun l => String.join (l.map fun p => p.1 ++ p.2))
        startsWithUnderscore
        [⟨"a", none⟩, ⟨"_private", none⟩, ⟨"b", some 10⟩] []
        [("b", 2), ("_private", 5), ("a", 1)] ∧
    bindArgs [⟨"a", none⟩, ⟨"_private", none⟩, ⟨"b", some 10⟩] ([] : List Nat)
        [("b", 2), ("_private", 5), ("a", 1)] =
      bindArgs [⟨"a", none⟩, ⟨"_private", none⟩, ⟨"b", some 10⟩] []
        [("a", 1), ("_private", 5), ("b", 2)] ∧
    bindArgs [⟨"a", none⟩, ⟨"c", none⟩] [1, 5] ([] : List (String × Nat)) =
      bindArgs [⟨"a", none⟩, ⟨"c", none⟩] [] [("a", 1), ("c", 5)] ∧
    bindArgs [⟨"a", none⟩, ⟨"b", some 10⟩] [1] ([] : List (String × Nat)) =
      bindArgs [⟨"a", none⟩, ⟨"b", some 10⟩] [1] [("b", 10)] ∧
    hash_arguments toString (fun l => String.join (l.map fun p => p.1 ++ p.2))
        (filter_arguments [("a", 1), ("_private", 5), ("b", 2)]
          startsWithUnderscore) =
      hash_arguments toString (fun l => String.join (l.map fun p => p.1 ++ p.2))
        (filter_arguments [("a", 1), ("_private", 99), ("b", 2)]
          startsWithUnderscore) := by
  have h := @input_id_invariance_c2 Nat toString
    (fun l => String.join (l.map fun p => p.1 ++ p.2)) startsWithUnderscore
  refine ⟨rfl, rfl, ?_, ?_, ?_, ?_, ?_⟩
  · exact h.1 [⟨"a", none⟩, ⟨"_private", none⟩, ⟨"b", some 10⟩]
      [1, 5, 2] [] [] [("b", 2), ("_private", 5), ("a", 1)]
      [("a", 1), ("_private", 5), ("b", 2)] rfl rfl
  · exact h.2.1 [⟨"a", none⟩, ⟨"_private", none⟩, ⟨"b", some 10⟩] []
      [("b", 2), ("_private", 5), ("a", 1)]
      [("a", 1), ("_private", 5), ("b", 2)]
      (by decide) (by decide)
  · exact h.2.2.1 [⟨"a", none⟩, ⟨"c", none⟩] [1, 5] (by decide) (by decide)
  · exact h.2.2.2.1 [⟨"a", none⟩] "b" 10 [1] (by decide) (by decide)
  · exact h.2.2.2.2 [("a", 1), ("_private", 5), ("b", 2)]
      [("a", 1), ("_private", 99), ("b", 2)]
      (List.Forall₂.cons ⟨rfl, fun _ => rfl⟩
        (List.Forall₂.cons ⟨rfl, fun hc => absurd hc (by decide)⟩
          (List.Forall₂.cons ⟨rfl, fun _ => rfl⟩ List.Forall₂.nil)))

/-- A concrete disk-cache configuration for witnesses (the digest
primitive instantiated with the identity). -/
def sampleEnv : DiskEnv := ⟨["cache"], fun s => s⟩

/-- A concrete input key for witnesses. -/
def sampleKey : InputKey := ⟨"tests:foo", "ad089d3d19511caa"⟩

/-- A concrete metadata record for witnesses. -/
def sampleMeta : Metadata :=
  ⟨"ad089d3d19511caa", "3ca08f64e96a37c2", "2024-01-01T00:00:00Z", "pickle", none⟩

/-- A concrete serializer over `Nat` for witnesses; round-trips. -/
def sampleSerializer : SerializerModel Nat :=
  ⟨fun n => .ok [n], fun b => .ok (b.headD 0), "pickle"⟩

/-- C10: `exists(input_key)` holds exactly when the entry's
`metadata.json` is present; because `write` stores the output bytes
before the metadata, the output-write step alone never makes `exists`
true — the entry becomes observable only once the metadata write has
completed. -/
theorem exists_iff_metadata_c10 :
    (∀ (env : DiskEnv) (fs : FS) (k : InputKey),
      DiskCache.existsEntry env fs k =
        (fsLookup fs (construct_metadata_path env k)).isSome) ∧
    (∀ (env : DiskEnv) (fs : FS) (k : InputKey) (b : Bytes) (m : Metadata),
      m.output_id ++ "." ++ m.serializer_extension ≠ "metadata.json" →
      (DiskCache.existsEntry env fs k = false →
        DiskCache.existsEntry env
          (DiskCache.write_output env b m k fs).2.1 k = false) ∧
      DiskCache.existsEntry env
        (DiskCache.dump_metadata env m k
          (DiskCache.write_output env b m k fs).2.1).2.1 k = true) := by
  refine ⟨fun env fs k => rfl, fun env fs k b m hname => ⟨fun habs => ?_, ?_⟩⟩
  · unfold DiskCache.existsEntry at *
    rw [write_output_state, fsLookup_insert_ne]
    · exact habs
    · exact snoc_ne_snoc _ _ _ (fun he => hname he.symm)
  · unfold DiskCache.existsEntry
    rw [dump_metadata_state, fsLookup_insert_self]
    rfl

/-- Witness for C10 at concrete inputs. -/
theorem exists_iff_metadata_c10_witness :
    (sampleMeta.output_id ++ "." ++ sampleMeta.serializer_extension ≠
      "metadata.json") ∧
    DiskCache.existsEntry sampleEnv [] sampleKey = false ∧
    DiskCache.existsEntry sampleEnv
      (DiskCache.write_output sampleEnv [3] sampleMeta sampleKey []).2.1
      sampleKey = false ∧
    DiskCache.existsEntry sampleEnv
      (DiskCache.dump_metadata sampleEnv sampleMeta sampleKey
        (DiskCache.write_output sampleEnv [3] sampleMeta sampleKey []).2.1).2.1
      sampleKey = true := by
  refine ⟨by decide, by decide, ?_, ?_⟩
  · exact (exists_iff_metadata_c10.2 sampleEnv [] sampleKey [3] sampleMeta
      (by decide)).1 (by decide)
  · exact (exists_iff_metadata_c10.2 sampleEnv [] sampleKey [3] sampleMeta
      (by decide)).2

/-- C9: after `evict(input_key)`, `exists(input_key)` is false; a
subsequent load of that key (with reads enabled) fails with the
distinguished `InputKeyNotFoundError` signal — wrapped in the
`LoadException` that `_load` puts around every failure — and
`load_metadata` raises `InputKeyNotFoundError` directly; in neither
case is the failure a generic I/O error. -/
theorem evict_then_absent_c9 (α : Type) (env : DiskEnv) (now : String)
    (ser : SerializerModel α) (ctrl : CacheController α)
    (g : GlobalCacheController) (envS : EnvState) (k : InputKey) (fs : FS)
    (hread : truthy (ctrl.is_read_enabled g envS) = true) :
    DiskCache.existsEntry env (DiskCache.evict env k fs).1 k = false ∧
    (CacheableFunction.load (diskOps env now) ser ctrl g envS k
        (DiskCache.evict env k fs).1).1 =
      .error (.loadExc (.inputKeyNotFound k)) ∧
    CacheableFunction.load_metadata env k (DiskCache.evict env k fs).1 =
      .error (.inputKeyNotFound k) ∧
    isReadException (.inputKeyNotFound k) = false ∧
    (∀ p : DPath, (CacheError.inputKeyNotFound k) ≠ .fileNotFound p) := by
  have habs : DiskCache.existsEntry env (DiskCache.evict env k fs).1 k = false := by
    unfold DiskCache.existsEntry DiskCache.evict
    rw [fsLookup_removeTree]
    · rfl
    · exact isPrefixOf_append _ _
  refine ⟨habs, ?_, ?_, rfl, fun p h => CacheError.noConfusion h⟩
  · unfold CacheableFunction.load
    rw [hread]
    have : (diskOps env now).existsFn (DiskCache.evict env k fs).1 k = false := habs
    rw [this]
    rfl
  · unfold CacheableFunction.load_metadata
    rw [habs]
    rfl

/-- Witness for C9 at concrete inputs. -/
theorem evict_then_absent_c9_witness :
    truthy ((⟨some true, none, none⟩ : CacheController Nat).is_read_enabled
      ⟨none, none⟩ ⟨false, false⟩) = true ∧
    DiskCache.existsEntry sampleEnv
      (DiskCache.evict sampleEnv sampleKey []).1 sampleKey = false ∧
    (CacheableFunction.load (diskOps sampleEnv "t") sampleSerializer
        ⟨some true, none, none⟩ ⟨none, none⟩ ⟨false, false⟩ sampleKey
        (DiskCache.evict sampleEnv sampleKey []).1).1 =
      .error (.loadExc (.inputKeyNotFound sampleKey)) := by
  have h := evict_then_absent_c9 Nat sampleEnv "t" sampleSerializer
    ⟨some true, none, none⟩ ⟨none, none⟩ ⟨false, false⟩ sampleKey []
    (by decide)
  exact ⟨by decide, h.1, h.2.1⟩

/-- C7 counterexample: on an empty cache, `read` fails with the raw
`FileNotFoundError` from `os.stat` in `load_metadata` — not with a
`ReadException` — contradicting the claim that every I/O or
missing-file failure of `read` is wrapped in `ReadException`. -/
theorem read_missing_metadata_unwrapped_c7 :
    (DiskCache.read sampleEnv "t" sampleKey []).1 =
      .error (.fileNotFound ["cache", "functions", "tests:foo", "inputs",
        "ad089d3d19511caa", "metadata.json"]) ∧
    isReadException (.fileNotFound ["cache", "functions", "tests:foo",
      "inputs", "ad089d3d19511caa", "metadata.json"]) = false := by
  exact ⟨rfl, rfl⟩

/-- C7 (amended): `read(input_key)` updates the entry's last-accessed
timestamp, loads the metadata, and reads the output file named from the
metadata's `output_id` and serializer extension; a failure reading the
output file is wrapped in `ReadException`, but a missing metadata file
makes `read` fail with the raw, unwrapped file-not-found error. -/
theorem read_wraps_output_failures_c7 (env : DiskEnv) (now : String)
    (k : InputKey) (fs : FS) (m : Metadata)
    (hname : m.output_id ++ "." ++ m.serializer_extension ≠ "metadata.json") :
    (fsLookup fs (construct_metadata_path env k) = none →
      (DiskCache.read env now k fs).1 =
        .error (.fileNotFound (construct_metadata_path env k)) ∧
      isReadException (.fileNotFound (construct_metadata_path env k)) = false) ∧
    (fsLookup fs (construct_metadata_path env k) = some (.metaFile m) →
      (fsLookup fs (construct_output_path env k m) = none →
        (DiskCache.read env now k fs).1 =
          .error (.readExc (.fileNotFound (construct_output_path env k m))) ∧
        isReadException (.readExc (.fileNotFound (construct_output_path env k m)))
          = true) ∧
      (∀ b : Bytes, fsLookup fs (construct_output_path env k m) = some (.raw b) →
        (DiskCache.read env now k fs).1 = .ok b ∧
        fsLookup (DiskCache.read env now k fs).2.1
            (construct_metadata_path env k) =
          some (.metaFile { m with last_accessed := some now }) ∧
        (DiskCache.read env now k fs).2.2 =
          [.acquireLock (construct_lock_path env k),
            .openRead (construct_metadata_path env k),
            .releaseLock (construct_lock_path env k),
            .acquireLock (construct_lock_path env k),
            .mkdirParents ((construct_metadata_path env k).dropLast),
            .openWrite (construct_metadata_path env k)
              (.metaFile { m with last_accessed := some now }),
            .releaseLock (construct_lock_path env k),
            .acquireLock (construct_lock_path env k),
            .openRead (construct_metadata_path env k),
            .releaseLock (construct_lock_path env k),
            .acquireLock (construct_lock_path env k),
            .openRead (construct_output_path env k m),
            .releaseLock (construct_lock_path env k)])) := by
  have hne : construct_metadata_path env k ≠ construct_output_path env k m :=
    snoc_ne_snoc _ _ _ (fun he => hname he.symm)
  constructor
  · intro hm
    constructor
    · simp only [DiskCache.read, DiskCache.update_last_accessed,
        DiskCache.load_metadata, hm]
    · rfl
  · intro hm
    constructor
    · intro hout
      constructor
      · simp only [DiskCache.read, DiskCache.update_last_accessed,
          DiskCache.load_metadata, DiskCache.dump_metadata, DiskCache.read_output,
          hm, if_neg (metaFile_size_ok m),
          if_neg (metaFile_size_ok { m with last_accessed := some now }),
          fsLookup_insert_self, construct_output_path_touch,
          fsLookup_insert_ne _ _ _ _ (Ne.symm hne), hout]
      · rfl
    · intro b hout
      refine ⟨?_, ?_, ?_⟩
      all_goals
        simp only [DiskCache.read, DiskCache.update_last_accessed,
          DiskCache.load_metadata, DiskCache.dump_metadata, DiskCache.read_output,
          hm, if_neg (metaFile_size_ok m),
          if_neg (metaFile_size_ok { m with last_accessed := some now }),
          fsLookup_insert_self, construct_output_path_touch,
          fsLookup_insert_ne _ _ _ _ (Ne.symm hne), hout, fsvalBytes]
      all_goals rfl

/-- Witness for the amended C7 at concrete inputs. -/
theorem read_wraps_output_failures_c7_witness :
    (sampleMeta.output_id ++ "." ++ sampleMeta.serializer_extension ≠
      "metadata.json") ∧
    (DiskCache.read sampleEnv "t" sampleKey
        [(construct_metadata_path sampleEnv sampleKey, .metaFile sampleMeta)]).1 =
      .error (.readExc (.fileNotFound
        (construct_output_path sampleEnv sampleKey sampleMeta))) ∧
    (DiskCache.read sampleEnv "t" sampleKey
        [(construct_metadata_path sampleEnv sampleKey, .metaFile sampleMeta),
         (construct_output_path sampleEnv sampleKey sampleMeta, .raw [7])]).1 =
      .ok [7] := by
  have h1 := (read_wraps_output_failures_c7 sampleEnv "t" sampleKey
    [(construct_metadata_path sampleEnv sampleKey, .metaFile sampleMeta)]
    sampleMeta (by decide)).2 (by rw [fsLookup]; rfl)
  have h2 := (read_wraps_output_failures_c7 sampleEnv "t" sampleKey
    [(construct_metadata_path sampleEnv sampleKey, .metaFile sampleMeta),
     (construct_output_path sampleEnv sampleKey sampleMeta, .raw [7])]
    sampleMeta (by decide)).2 (by rw [fsLookup]; rfl)
  refine ⟨by decide, (h1.1 (by decide)).1, (h2.2 [7] (by decide)).1⟩

/-- C8 counterexample: the disk cache's `write_output`
(`caches/disk.py`) opens the destination output file directly inside
the entry directory — its event trace performs no temporary-directory
staging and no staged swap — so the claimed stage-then-swap protocol
does not hold of it. -/
theorem disk_write_output_not_staged_c8 :
    usesTempStaging
      (DiskCache.write_output sampleEnv [3] sampleMeta sampleKey []).2.2 = false ∧
    writesDirectlyUnder
      (DiskCache.write_output sampleEnv [3] sampleMeta sampleKey []).2.2
      (construct_input_path sampleEnv sampleKey) = true := by
  exact ⟨rfl, by decide⟩

/-- C8 (amended): the legacy staged write protocol
(`CacheableFunction._write_to_cache` / `DiskBackend.write_output`)
stages the entry's files in a private temporary directory, fails the
non-empty verification when nothing was staged, and only then replaces
the destination directory contents with the staged ones
(remove-then-move): every file write in its trace targets the staging
directory, the installing `copytree` is the final event, and after a
(single-file) write the destination holds exactly the staged file.  The
current `DiskCache.write_output` instead writes the output file
directly at its destination without staging. -/
theorem staged_write_protocol_c8 (tmp dest : DPath)
    (files : List (String × Bytes)) (fs : FS) :
    (files = [] →
      (write_to_cache tmp dest files fs).1 = .error (.dumpExc .assertionFailed)) ∧
    (files ≠ [] →
      (write_to_cache tmp dest files fs).1 = .ok () ∧
      allWritesUnder (write_to_cache tmp dest files fs).2.2 tmp = true ∧
      usesTempStaging (write_to_cache tmp dest files fs).2.2 = true ∧
      (write_to_cache tmp dest files fs).2.2.getLast? =
        some (.copyTree tmp dest)) ∧
    (∀ (n : String) (b : Bytes), files = [(n, b)] →
      tmp.isPrefixOf (dest ++ [n]) = false →
      fsLookup (write_to_cache tmp dest files fs).2.1 (dest ++ [n]) =
        some (.raw b) ∧
      (∀ q : DPath, dest.isPrefixOf q = true → q ≠ dest ++ [n] →
        fsLookup (write_to_cache tmp dest files fs).2.1 q = none)) := by
  refine ⟨?_, ?_, ?_⟩
  · intro h
    subst h
    rfl
  · intro h
    have hne : files.isEmpty = false := by
      cases files with
      | nil => exact absurd rfl h
      | cons a t => rfl
    refine ⟨?_, ?_, ?_, ?_⟩
    · simp only [write_to_cache, hne]
      rfl
    · simp only [write_to_cache, hne, Bool.false_eq_true, if_false,
        allWritesUnder, List.all_append, List.all_map, Bool.and_eq_true]
      refine ⟨⟨?_, ?_⟩, ?_⟩
      · rw [List.all_eq_true]
        intro f hf
        obtain ⟨g, hg, rfl⟩ := List.mem_map.1 hf
        exact isPrefixOf_append tmp [g.1]
      · rfl
      · constructor
        · split <;> rfl
        · rfl
    · simp only [write_to_cache, hne, Bool.false_eq_true, if_false,
        usesTempStaging, List.any_append]
      rw [Bool.or_eq_true, Bool.or_eq_true, Bool.or_eq_true]
      right
      right
      rfl
    · simp only [write_to_cache, hne, Bool.false_eq_true, if_false]
      rw [List.getLast?_append_of_ne_nil]
      · rw [List.getLast?_append_of_ne_nil]
        · rfl
        · exact List.cons_ne_nil _ _
      · intro hc
        have hlen := congrArg List.length hc
        rw [List.length_append] at hlen
        have h1 : ([FSEvent.copyTree tmp dest]).length = 1 := rfl
        have h0 : ([] : List FSEvent).length = 0 := rfl
        rw [h1, h0] at hlen
        omega
  · intro n b hf htmp
    subst hf
    have hstate : (write_to_cache tmp dest [(n, b)] fs).2.1 =
        fsRemoveTree (fsInsert
          (fsRemoveTree (fsInsert fs (tmp ++ [n]) (.raw b)) dest)
          (dest ++ [n]) (.raw b)) tmp := by
      simp only [write_to_cache]
      rfl
    constructor
    · rw [hstate, fsLookup_removeTree_not_under _ _ _ htmp, fsLookup_insert_self]
    · intro q hq hqne
      rw [hstate]
      apply fsLookup_removeTree_of_none
      rw [fsLookup_insert_ne _ _ _ _ hqne]
      exact fsLookup_removeTree _ _ _ hq

/-- Witness for the amended C8 at concrete inputs. -/
theorem staged_write_protocol_c8_witness :
    (([("out.pickle", [9])] : List (String × Bytes)) ≠ []) ∧
    (write_to_cache ["tmp"] ["cache", "entry"] [("out.pickle", [9])] []).1 =
      .ok () ∧
    usesTempStaging
      (write_to_cache ["tmp"] ["cache", "entry"] [("out.pickle", [9])] []).2.2 =
      true ∧
    fsLookup (write_to_cache ["tmp"] ["cache", "entry"]
        [("out.pickle", [9])] []).2.1 ["cache", "entry", "out.pickle"] =
      some (.raw [9]) := by
  have h := staged_write_protocol_c8 ["tmp"] ["cache", "entry"]
    [("out.pickle", [9])] []
  refine ⟨by decide, (h.2.1 (by decide)).1, (h.2.1 (by decide)).2.2.1, ?_⟩
  exact (h.2.2 "out.pickle" [9] rfl (by decide)).1

theorem call_characterization {σ α ε : Type} (ops : CacheOps σ)
    (ser : SerializerModel α) (hashBytes : Bytes → String) (now : String)
    (ctrl : CacheController α) (g : GlobalCacheController) (env : EnvState)
    (keyRes : Except String InputKey) (fnRes : Except ε α) (s : σ) :
    ((CacheableFunction.call ops ser hashBytes now ctrl g env keyRes fnRes
        s).result = fnRes.mapError CallError.fnError ∧
      (CacheableFunction.call ops ser hashBytes now ctrl g env keyRes fnRes
        s).fnCalls = 1) ∨
    ((CacheableFunction.call ops ser hashBytes now ctrl g env keyRes fnRes
        s).result.isOk = true ∧
      (CacheableFunction.call ops ser hashBytes now ctrl g env keyRes fnRes
        s).fnCalls = 0) := by
  simp only [CacheableFunction.call]
  split
  · left
    exact ⟨rfl, rfl⟩
  · split
    · left
      exact ⟨rfl, rfl⟩
    · split
      · right
        exact ⟨rfl, rfl⟩
      · split
        · left
          exact ⟨rfl, rfl⟩
        · split
          · split
            · left
              exact ⟨rfl, rfl⟩
            · left
              exact ⟨rfl, rfl⟩
          · left
            exact ⟨rfl, rfl⟩

/-- C3: every failure inside the caching path (key derivation, cache
read / deserialization, serialization / write) is caught: an error
surfaces from a call only when the wrapped function itself raised it;
whenever the wrapped function runs and succeeds, its freshly computed
output is what the call returns; a key-derivation failure (with caching
consulted) is downgraded to one warning with the function still
executed; and a failing dump is downgraded to one warning with the
fresh output still returned. -/
theorem caching_failures_downgraded_c3 {σ α ε : Type} (ops : CacheOps σ)
    (ser : SerializerModel α) (hashBytes : Bytes → String) (now : String)
    (ctrl : CacheController α) (g : GlobalCacheController) (env : EnvState)
    (keyRes : Except String InputKey) (fnRes : Except ε α) (s : σ) :
    (∀ e, (CacheableFunction.call ops ser hashBytes now ctrl g env keyRes fnRes
        s).result = .error e →
      ∃ e0, e = CallError.fnError e0 ∧ fnRes = .error e0) ∧
    (∀ v : α, fnRes = .ok v →
      (CacheableFunction.call ops ser hashBytes now ctrl g env keyRes fnRes
        s).fnCalls = 1 →
      (CacheableFunction.call ops ser hashBytes now ctrl g env keyRes fnRes
        s).result = .ok v) ∧
    (∀ v : α, fnRes = .ok v →
      (CacheableFunction.call ops ser hashBytes now ctrl g env keyRes fnRes
        s).result.isOk = true) ∧
    (∀ msg, keyRes = .error msg →
      (truthy (ctrl.is_read_enabled g env) = true ∨
        truthy (ctrl.is_write_enabled g env) = true) →
      (CacheableFunction.call ops ser hashBytes now ctrl g env keyRes fnRes
          s).result = fnRes.mapError CallError.fnError ∧
      (CacheableFunction.call ops ser hashBytes now ctrl g env keyRes fnRes
          s).fnCalls = 1 ∧
      (CacheableFunction.call ops ser hashBytes now ctrl g env keyRes fnRes
          s).warnings = 1) ∧
    (∀ (v : α) (key : InputKey) (e' : CacheError) (s' : σ), fnRes = .ok v →
      keyRes = .ok key → truthy (ctrl.is_read_enabled g env) = false →
      truthy (ctrl.is_write_enabled g env) = true →
      CacheableFunction.dump ops ser hashBytes now ctrl g env v key s =
        (.error e', s') →
      (CacheableFunction.call ops ser hashBytes now ctrl g env keyRes fnRes
          s).result = .ok v ∧
      (CacheableFunction.call ops ser hashBytes now ctrl g env keyRes fnRes
          s).fnCalls = 1 ∧
      (CacheableFunction.call ops ser hashBytes now ctrl g env keyRes fnRes
          s).warnings = 1) := by
  refine ⟨?_, ?_, ?_, ?_, ?_⟩
  · intro e he
    rcases call_characterization ops ser hashBytes now ctrl g env keyRes fnRes s
        with ⟨hres, _⟩ | ⟨hok, _⟩
    · rw [hres] at he
      cases fnRes with
      | ok v => exact absurd he (by simp [Except.mapError])
      | error e0 =>
          refine ⟨e0, ?_, rfl⟩
          simpa [Except.mapError] using he.symm
    · rw [he] at hok
      simp [Except.isOk, Except.toBool] at hok
  · intro v hv hcalls
    rcases call_characterization ops ser hashBytes now ctrl g env keyRes fnRes s
        with ⟨hres, _⟩ | ⟨_, h0⟩
    · rw [hres, hv]
      rfl
    · rw [h0] at hcalls
      exact absurd hcalls (by simp)
  · intro v hv
    rcases call_characterization ops ser hashBytes now ctrl g env keyRes fnRes s
        with ⟨hres, _⟩ | ⟨hok, _⟩
    · rw [hres, hv]
      rfl
    · exact hok
  · intro msg hkey hrw
    subst hkey
    unfold CacheableFunction.call
    rw [if_neg (not_not_intro hrw)]
    exact ⟨rfl, rfl, rfl⟩
  · intro v key e' s' hv hkey hr hw hdump
    subst hv
    subst hkey
    unfold CacheableFunction.call
    rw [if_neg (not_not_intro (Or.inr hw))]
    simp only [hr, Bool.false_eq_true, if_false, hw, if_true, hdump]
    exact ⟨trivial, trivial, trivial⟩

theorem disk_read_found (env : DiskEnv) (now : String) (k : InputKey)
    (fs : FS) (m : Metadata) (b : Bytes)
    (hm : fsLookup fs (construct_metadata_path env k) = some (.metaFile m))
    (hne : construct_metadata_path env k ≠ construct_output_path env k m)
    (hout : fsLookup fs (construct_output_path env k m) = some (.raw b)) :
    (DiskCache.read env now k fs).1 = .ok b := by
  simp only [DiskCache.read, DiskCache.update_last_accessed,
    DiskCache.load_metadata, DiskCache.dump_metadata, DiskCache.read_output,
    hm, if_neg (metaFile_size_ok m),
    if_neg (metaFile_size_ok { m with last_accessed := some now }),
    fsLookup_insert_self, construct_output_path_touch,
    fsLookup_insert_ne _ _ _ _ (Ne.symm hne), hout, fsvalBytes]

/-- A serializer whose `serialize`/`deserialize` always raise, for
exercising the failure paths in witnesses. -/
def failingSerializer : SerializerModel Nat :=
  ⟨fun _ => .error .serializeFailed, fun _ => .error .deserializeFailed, "pickle"⟩

/-- Witness for C3 at concrete inputs: with a serializer whose
`serialize` raises, the write path fails, yet the call returns the
fresh output with one warning; with key derivation failing, the call
still returns the fresh output with one warning. -/
theorem caching_failures_downgraded_c3_witness :
    (CacheableFunction.dump (diskOps sampleEnv "t") failingSerializer
        (fun _ => "deadbeef") "t" ⟨none, some true, none⟩ ⟨none, none⟩
        ⟨false, false⟩ 5 sampleKey [] =
      (.error (.dumpExc .serializeFailed), ([] : FS))) ∧
    ((CacheableFunction.call (diskOps sampleEnv "t") failingSerializer
        (fun _ => "deadbeef") "t" ⟨none, some true, none⟩ ⟨none, none⟩
        ⟨false, false⟩ (.ok sampleKey) ((Except.ok 5 : Except String Nat))
        ([] : FS)).result = .ok 5 ∧
      (CacheableFunction.call (diskOps sampleEnv "t") failingSerializer
        (fun _ => "deadbeef") "t" ⟨none, some true, none⟩ ⟨none, none⟩
        ⟨false, false⟩ (.ok sampleKey) ((Except.ok 5 : Except String Nat))
        ([] : FS)).fnCalls = 1 ∧
      (CacheableFunction.call (diskOps sampleEnv "t") failingSerializer
        (fun _ => "deadbeef") "t" ⟨none, some true, none⟩ ⟨none, none⟩
        ⟨false, false⟩ (.ok sampleKey) ((Except.ok 5 : Except String Nat))
        ([] : FS)).warnings = 1) ∧
    ((CacheableFunction.call (diskOps sampleEnv "t") failingSerializer
        (fun _ => "deadbeef") "t" ⟨none, some true, none⟩ ⟨none, none⟩
        ⟨false, false⟩ (.error "failed to construct input key")
        ((Except.ok 5 : Except String Nat)) ([] : FS)).result = .ok 5 ∧
      (CacheableFunction.call (diskOps sampleEnv "t") failingSerializer
        (fun _ => "deadbeef") "t" ⟨none, some true, none⟩ ⟨none, none⟩
        ⟨false, false⟩ (.error "failed to construct input key")
        ((Except.ok 5 : Except String Nat)) ([] : FS)).warnings = 1) := by
  have h1 := caching_failures_downgraded_c3 (diskOps sampleEnv "t")
    failingSerializer (fun _ => "deadbeef") "t" ⟨none, some true, none⟩
    ⟨none, none⟩ ⟨false, false⟩ (.ok sampleKey) ((Except.ok 5 : Except String Nat))
    ([] : FS)
  have h2 := caching_failures_downgraded_c3 (diskOps sampleEnv "t")
    failingSerializer (fun _ => "deadbeef") "t" ⟨none, some true, none⟩
    ⟨none, none⟩ ⟨false, false⟩ (.error "failed to construct input key")
    ((Except.ok 5 : Except String Nat)) ([] : FS)
  have hd := h1.2.2.2.2 5 sampleKey (.dumpExc .serializeFailed) [] rfl rfl
    rfl rfl rfl
  have hk := h2.2.2.2.1 "failed to construct input key" rfl (Or.inr rfl)
  exact ⟨rfl, ⟨hd.1, hd.2.1, hd.2.2⟩, hk.1, hk.2.2⟩

theorem written_metadata_found (env : DiskEnv) (now : String) (b : Bytes)
    (m : Metadata) (k : InputKey) (fs : FS) :
    fsLookup (writtenState env now b m k fs) (construct_metadata_path env k) =
      some (.metaFile { m with last_accessed := some now }) :=
  fsLookup_insert_self _ _ _

theorem written_output_found (env : DiskEnv) (now : String) (b : Bytes)
    (m : Metadata) (k : InputKey) (fs : FS)
    (hne : construct_metadata_path env k ≠ construct_output_path env k m) :
    fsLookup (writtenState env now b m k fs)
      (construct_output_path env k { m with last_accessed := some now }) =
      some (.raw b) := by
  unfold writtenState
  rw [construct_output_path_touch,
    fsLookup_insert_ne _ _ _ _ (Ne.symm hne),
    fsLookup_insert_ne _ _ _ _ (Ne.symm hne),
    fsLookup_insert_self]

theorem call_read_hit {σ α ε : Type} (ops : CacheOps σ)
    (ser : SerializerModel α) (hashBytes : Bytes → String) (now : String)
    (ctrl : CacheController α) (g : GlobalCacheController) (env : EnvState)
    (k : InputKey) (fnRes : Except ε α) (s : σ) (v : α) (s' : σ)
    (hr : truthy (ctrl.is_read_enabled g env) = true)
    (hex : ops.existsFn s k = true)
    (hload : CacheableFunction.load ops ser ctrl g env k s = (.ok v, s'))
    (hfilter : ctrl.is_passing_filter v = true) :
    CacheableFunction.call ops ser hashBytes now ctrl g env (.ok k) fnRes s =
      { result := .ok v, fnCalls := 0, warnings := 0, state := s' } := by
  simp only [CacheableFunction.call]
  rw [hr, if_neg (by simp)]
  simp only [hex, hload, hfilter, if_true]

theorem disk_load_found {α : Type} (env : DiskEnv) (now : String)
    (ser : SerializerModel α) (ctrl : CacheController α)
    (g : GlobalCacheController) (envS : EnvState) (k : InputKey) (fs : FS)
    (m : Metadata) (b : Bytes) (v : α)
    (hr : truthy (ctrl.is_read_enabled g envS) = true)
    (hm : fsLookup fs (construct_metadata_path env k) = some (.metaFile m))
    (hne : construct_metadata_path env k ≠ construct_output_path env k m)
    (hout : fsLookup fs (construct_output_path env k m) = some (.raw b))
    (hdes : ser.deserialize b = .ok v) :
    CacheableFunction.load (diskOps env now) ser ctrl g envS k fs =
      (.ok v, (DiskCache.read env now k fs).2.1) := by
  have hread := disk_read_found env now k fs m b hm hne hout
  have hex : (diskOps env now).existsFn fs k = true := by
    show (fsLookup fs (construct_metadata_path env k)).isSome = true
    rw [hm]
    rfl
  unfold CacheableFunction.load
  rw [hr, if_neg (by simp), hex, if_neg (by simp)]
  simp only [diskOps, hread, hdes]

/-- C1: a first call through the wrapper with writes enabled executes
the wrapped function (call counter 1), returns its output, and
persists it through the disk cache; a second call binding to the same
input key, made with reads enabled, returns the cached output without
invoking the wrapped function (call counter 0), whatever the wrapped
function's result would be on the second call. -/
theorem read_after_write_c1 {α ε₁ ε₂ : Type} (env : DiskEnv)
    (hashBytes : Bytes → String) (now1 now2 : String)
    (ser : SerializerModel α) (v : α) (b : Bytes) (k : InputKey) (s0 : FS)
    (fnRes2 : Except ε₂ α)
    (hser : ser.serialize v = .ok b) (hdes : ser.deserialize b = .ok v)
    (hname : strTake (hashBytes b) 16 ++ "." ++ ser.extension ≠ "metadata.json") :
    (CacheableFunction.call (diskOps env now1) ser hashBytes now1
        ⟨none, some true, none⟩ ⟨none, none⟩ ⟨false, false⟩ (.ok k)
        ((Except.ok v : Except ε₁ α)) s0).result = .ok v ∧
    (CacheableFunction.call (diskOps env now1) ser hashBytes now1
        ⟨none, some true, none⟩ ⟨none, none⟩ ⟨false, false⟩ (.ok k)
        ((Except.ok v : Except ε₁ α)) s0).fnCalls = 1 ∧
    (CacheableFunction.call (diskOps env now2) ser hashBytes now2
        ⟨some true, some false, none⟩ ⟨none, none⟩ ⟨false, false⟩ (.ok k)
        fnRes2
        (CacheableFunction.call (diskOps env now1) ser hashBytes now1
          ⟨none, some true, none⟩ ⟨none, none⟩ ⟨false, false⟩ (.ok k)
          ((Except.ok v : Except ε₁ α)) s0).state).result = .ok v ∧
    (CacheableFunction.call (diskOps env now2) ser hashBytes now2
        ⟨some true, some false, none⟩ ⟨none, none⟩ ⟨false, false⟩ (.ok k)
        fnRes2
        (CacheableFunction.call (diskOps env now1) ser hashBytes now1
          ⟨none, some true, none⟩ ⟨none, none⟩ ⟨false, false⟩ (.ok k)
          ((Except.ok v : Except ε₁ α)) s0).state).fnCalls = 0 := by
  have hret : truthy ((⟨none, some true, none⟩ :
      CacheController α).is_read_enabled ⟨none, none⟩ ⟨false, false⟩) =
      false := rfl
  have hwet : truthy ((⟨none, some true, none⟩ :
      CacheController α).is_write_enabled ⟨none, none⟩ ⟨false, false⟩) =
      true := rfl
  have hre2 : truthy ((⟨some true, some false, none⟩ :
      CacheController α).is_read_enabled ⟨none, none⟩ ⟨false, false⟩) =
      true := rfl
  have hdmp : CacheableFunction.dump (diskOps env now1) ser hashBytes now1
      ⟨none, some true, none⟩ ⟨none, none⟩ ⟨false, false⟩ v k s0 =
      (.ok (), writtenState env now1 b
        (create_metadata k.input_id (get_output_id_from_bytes hashBytes b)
          ser.extension now1) k s0) := by
    simp only [CacheableFunction.dump]
    rw [hwet, if_neg (by simp)]
    simp only [hser, diskOps, DiskCache.write_spec]
  have h1 : CacheableFunction.call (diskOps env now1) ser hashBytes now1
      ⟨none, some true, none⟩ ⟨none, none⟩ ⟨false, false⟩ (.ok k)
      ((Except.ok v : Except ε₁ α)) s0 =
      { result := .ok v, fnCalls := 1, warnings := 0,
        state := writtenState env now1 b
          (create_metadata k.input_id (get_output_id_from_bytes hashBytes b)
            ser.extension now1) k s0 } := by
    simp only [CacheableFunction.call]
    rw [hret, hwet, if_neg (by simp)]
    simp only [Bool.false_eq_true, if_false, hdmp, if_true]
  have h1state : (CacheableFunction.call (diskOps env now1) ser hashBytes now1
      ⟨none, some true, none⟩ ⟨none, none⟩ ⟨false, false⟩ (.ok k)
      ((Except.ok v : Except ε₁ α)) s0).state =
      writtenState env now1 b
        (create_metadata k.input_id (get_output_id_from_bytes hashBytes b)
          ser.extension now1) k s0 := by
    rw [h1]
  have hmdne : construct_metadata_path env k ≠ construct_output_path env k
      (create_metadata k.input_id (get_output_id_from_bytes hashBytes b)
        ser.extension now1) :=
    snoc_ne_snoc _ _ _ (fun he => hname he.symm)
  have hne1 : construct_metadata_path env k ≠ construct_output_path env k
      { create_metadata k.input_id (get_output_id_from_bytes hashBytes b)
          ser.extension now1 with last_accessed := some now1 } := by
    rw [construct_output_path_touch]
    exact hmdne
  have hex2 : (diskOps env now2).existsFn
      (writtenState env now1 b
        (create_metadata k.input_id (get_output_id_from_bytes hashBytes b)
          ser.extension now1) k s0) k = true := by
    show (fsLookup _ (construct_metadata_path env k)).isSome = true
    rw [written_metadata_found]
    rfl
  have hload := disk_load_found env now2 ser ⟨some true, some false, none⟩
    ⟨none, none⟩ ⟨false, false⟩ k
    (writtenState env now1 b
      (create_metadata k.input_id (get_output_id_from_bytes hashBytes b)
        ser.extension now1) k s0)
    { create_metadata k.input_id (get_output_id_from_bytes hashBytes b)
        ser.extension now1 with last_accessed := some now1 } b v hre2
    (written_metadata_found env now1 b _ k s0) hne1
    (written_output_found env now1 b _ k s0 hmdne) hdes
  have h2 := call_read_hit (diskOps env now2) ser hashBytes now2
    ⟨some true, some false, none⟩ ⟨none, none⟩ ⟨false, false⟩ k fnRes2
    (writtenState env now1 b
      (create_metadata k.input_id (get_output_id_from_bytes hashBytes b)
        ser.extension now1) k s0) v _ hre2 hex2 hload rfl
  refine ⟨?_, ?_, ?_, ?_⟩
  · rw [h1]
  · rw [h1]
  · rw [h1state, h2]
  · rw [h1state, h2]

/-- Witness for C1 at concrete inputs: `foo(1,2) = 3` cached on an
empty disk cache; the second, read-only call returns 3 from the cache
with the wrapped function not invoked (its second-call result is an
error that never surfaces). -/
theorem read_after_write_c1_witness :
    (sampleSerializer.serialize 3 = .ok [3]) ∧
    (sampleSerializer.deserialize [3] = .ok 3) ∧
    (strTake ((fun _ : Bytes => "0123456789abcdef0123456789abcdef") [3]) 16 ++
      "." ++ sampleSerializer.extension ≠ "metadata.json") ∧
    (CacheableFunction.call (diskOps sampleEnv "t1") sampleSerializer
        (fun _ => "0123456789abcdef0123456789abcdef") "t1"
        ⟨none, some true, none⟩ ⟨none, none⟩ ⟨false, false⟩ (.ok sampleKey)
        ((Except.ok 3 : Except String Nat)) []).result = .ok 3 ∧
    (CacheableFunction.call (diskOps sampleEnv "t1") sampleSerializer
        (fun _ => "0123456789abcdef0123456789abcdef") "t1"
        ⟨none, some true, none⟩ ⟨none, none⟩ ⟨false, false⟩ (.ok sampleKey)
        ((Except.ok 3 : Except String Nat)) []).fnCalls = 1 ∧
    (CacheableFunction.call (diskOps sampleEnv "t2") sampleSerializer
        (fun _ => "0123456789abcdef0123456789abcdef") "t2"
        ⟨some true, some false, none⟩ ⟨none, none⟩ ⟨false, false⟩
        (.ok sampleKey) (Except.error "second call must not execute")
        (CacheableFunction.call (diskOps sampleEnv "t1") sampleSerializer
          (fun _ => "0123456789abcdef0123456789abcdef") "t1"
          ⟨none, some true, none⟩ ⟨none, none⟩ ⟨false, false⟩ (.ok sampleKey)
          ((Except.ok 3 : Except String Nat)) []).state).result = .ok 3 ∧
    (CacheableFunction.call (diskOps sampleEnv "t2") sampleSerializer
        (fun _ => "0123456789abcdef0123456789abcdef") "t2"
        ⟨some true, some false, none⟩ ⟨none, none⟩ ⟨false, false⟩
        (.ok sampleKey) (Except.error "second call must not execute")
        (CacheableFunction.call (diskOps sampleEnv "t1") sampleSerializer
          (fun _ => "0123456789abcdef0123456789abcdef") "t1"
          ⟨none, some true, none⟩ ⟨none, none⟩ ⟨false, false⟩ (.ok sampleKey)
          ((Except.ok 3 : Except String Nat)) []).state).fnCalls = 0 := by
  have h := @read_after_write_c1 Nat String String sampleEnv
    (fun _ => "0123456789abcdef0123456789abcdef") "t1" "t2" sampleSerializer
    3 [3] sampleKey [] (.error "second call must not execute") rfl rfl
    (by decide)
  exact ⟨rfl, rfl, by decide, h.1, h.2.1, h.2.2.1, h.2.2.2⟩

end Cacheables
